import Mathlib

/- Shallow embedding of the planning-poker room store
   (src/lib/redis.ts and src/lib/redis-mock.ts) and of the room-scoped
   request handler (src/app/api/rooms/[roomId]/route.ts).

   Conventions of the embedding:
   * Time is a `Nat` of epoch milliseconds; each operation receives one
     instant `now` standing for the `Date.now()` calls it performs.
   * JavaScript mutation followed by `await updateRoom(...)` is modelled by
     explicit state passing: an operation returns the new store contents of
     the room key together with the value the caller sees (in JavaScript the
     caller holds a reference to the mutated room object, so the returned
     room always reflects the `lastActivity` stamp written by `updateRoom`).
   * `now - p.lastSeen` is `Nat` truncated subtraction. When
     `p.lastSeen > now`, JavaScript computes a negative number, which passes
     the `< PLAYER_TIMEOUT * 1000` test exactly as the truncated value `0`
     does, so keep/prune decisions agree with the source on all inputs.
   * The stores operate on one room key at a time (`room:` ++ roomId); every
     operation touches a single key, so a store is modelled as the contents
     of that one cell. -/

/-- Participant record (src/lib/types.ts, `Player`). -/
structure Player where
  id : String
  name : String
  vote : Option String
  hasVoted : Bool
  lastSeen : Nat
deriving Repr, DecidableEq

/-- Room record (src/lib/types.ts, `GameState`). -/
structure GameState where
  players : List Player
  revealed : Bool
  roomId : String
  createdAt : Nat
  lastActivity : Nat
deriving Repr, DecidableEq

/-- `const ROOM_EXPIRY = 60 * 60 * 24` (seconds). -/
def ROOM_EXPIRY : Nat := 60 * 60 * 24

/-- `const PLAYER_TIMEOUT = 60 * 5` (seconds). -/
def PLAYER_TIMEOUT : Nat := 60 * 5

/-- The staleness test `now - p.lastSeen < PLAYER_TIMEOUT * 1000` used by
`getRoom` in both store implementations. -/
def isActive (now : Nat) (p : Player) : Bool :=
  now - p.lastSeen < PLAYER_TIMEOUT * 1000

/-- The `findIndex`-then-assign-or-push step of `addPlayer`: replace the
first participant whose id matches `fresh.id`, otherwise append `fresh`. -/
def upsertPlayer (fresh : Player) : List Player → List Player
  | [] => [fresh]
  | p :: ps => if p.id == fresh.id then fresh :: ps else p :: upsertPlayer fresh ps

/-- Participant list of an optional room (`[]` when absent); used to state
properties about the value an operation returns. -/
def retPlayers : Option GameState → List Player
  | none => []
  | some r => r.players

/-- Reveal flag of an optional room. -/
def retRevealed : Option GameState → Option Bool
  | none => none
  | some r => some r.revealed

namespace Redis

/-- The Vercel KV cell backing one room key. `expiresAt` records the
absolute deadline installed by the last `kv.set(key, room, { ex })`;
`none` means no record (or no deadline) is present. -/
structure Store where
  room : Option GameState
  expiresAt : Option Nat
deriving Repr, DecidableEq

/-- Raw backend read: `kv.get<GameState>(`room:${roomId}`)`. A pure read of
the stored record; it takes no store output, hence performs no write. -/
def kvGet (s : Store) : Option GameState := s.room

/-- Raw backend write with expiry: `kv.set(key, room, { ex: ROOM_EXPIRY })`;
every such write resets the expiry window from the moment of the write. -/
def kvSetEx (now : Nat) (g : GameState) : Store :=
  { room := some g, expiresAt := some (now + ROOM_EXPIRY * 1000) }

/-- `updateRoom`: stamps `lastActivity = Date.now()` and persists with
expiry. The second component is the room object the caller now holds. -/
def updateRoom (now : Nat) (state : GameState) : Store × GameState :=
  let st := { state with lastActivity := now }
  (kvSetEx now st, st)

/-- `getRoom`: raw read, then filter out inactive players; if the filtered
list is shorter, persist the pruned room before returning it. -/
def getRoom (now : Nat) (s : Store) : Store × Option GameState :=
  match kvGet s with
  | none => (s, none)
  | some room =>
    let activePlayers := room.players.filter (isActive now)
    if activePlayers.length ≠ room.players.length then
      let res := updateRoom now { room with players := activePlayers }
      (res.1, some res.2)
    else
      (s, some room)

/-- `createRoom`: writes a fresh empty room under the key with expiry. -/
def createRoom (now : Nat) (roomId : String) : Store × GameState :=
  let room : GameState :=
    { players := [], revealed := false, roomId := roomId,
      createdAt := now, lastActivity := now }
  (kvSetEx now room, room)

/-- `addPlayer`: fetch (pruning), auto-create when absent, then replace the
first participant with the same id by `{ ...player, lastSeen: Date.now() }`
or push it, and persist. -/
def addPlayer (now : Nat) (roomId : String) (player : Player) (s : Store) :
    Store × GameState :=
  let got := (getRoom now s).2
  let room :=
    match got with
    | none => (createRoom now roomId).2
    | some r => r
  updateRoom now
    { room with players := upsertPlayer { player with lastSeen := now } room.players }

/-- `updatePlayerVote`: fetch (absent → null); map over the players, setting
vote, hasVoted and lastSeen on the matching id; persist and return. -/
def updatePlayerVote (now : Nat) (playerId vote : String) (s : Store) :
    Store × Option GameState :=
  let got := (getRoom now s).2
  match got with
  | none => ((getRoom now s).1, none)
  | some room =>
    let room1 := { room with players := room.players.map (fun p =>
        if p.id == playerId then
          { p with vote := some vote, hasVoted := true, lastSeen := now }
        else p) }
    let res := updateRoom now room1
    (res.1, some res.2)

/-- `toggleReveal`: fetch (absent → null); flip the reveal boolean; persist
and return. -/
def toggleReveal (now : Nat) (s : Store) : Store × Option GameState :=
  let got := (getRoom now s).2
  match got with
  | none => ((getRoom now s).1, none)
  | some room =>
    let res := updateRoom now { room with revealed := !room.revealed }
    (res.1, some res.2)

/-- `resetVotes`: fetch (absent → null); clear every vote and hasVoted,
refresh every lastSeen, clear revealed; persist and return. -/
def resetVotes (now : Nat) (s : Store) : Store × Option GameState :=
  let got := (getRoom now s).2
  match got with
  | none => ((getRoom now s).1, none)
  | some room =>
    let room1 := { room with
      players := room.players.map (fun p =>
        { p with vote := none, hasVoted := false, lastSeen := now }),
      revealed := false }
    let res := updateRoom now room1
    (res.1, some res.2)

/-- `updatePlayerHeartbeat`: fetch (absent → silent no-op); refresh lastSeen
on the matching id; persist. Returns only the new store (`void` in the
source). -/
def updatePlayerHeartbeat (now : Nat) (playerId : String) (s : Store) : Store :=
  let got := (getRoom now s).2
  match got with
  | none => (getRoom now s).1
  | some room =>
    (updateRoom now { room with players := room.players.map (fun p =>
        if p.id == playerId then { p with lastSeen := now } else p) }).1

/-- The fresh participant the route handler builds for a `join` action. -/
def freshPlayer (now : Nat) (pid name : String) : Player :=
  { id := pid, name := name, vote := none, hasVoted := false, lastSeen := now }

/-- The route-level `join` action: build the fresh participant and call
`addPlayer`. -/
def joinRoom (now : Nat) (roomId pid name : String) (s : Store) :
    Store × GameState :=
  addPlayer now roomId (freshPlayer now pid name) s

end Redis

namespace Mock

/-- The in-memory stand-in keeps a plain `Map` entry per room key with no
expiry metadata: the cell for one room is just the optional record. -/
abbrev Store := Option GameState

/-- Mock `updateRoom`: stamps `lastActivity` and stores without expiry. -/
def updateRoom (now : Nat) (state : GameState) : Store × GameState :=
  let st := { state with lastActivity := now }
  (some st, st)

/-- Mock `getRoom`: identical pruning logic to the durable backend. -/
def getRoom (now : Nat) (s : Store) : Store × Option GameState :=
  match s with
  | none => (s, none)
  | some room =>
    let activePlayers := room.players.filter (isActive now)
    if activePlayers.length ≠ room.players.length then
      let res := updateRoom now { room with players := activePlayers }
      (res.1, some res.2)
    else
      (s, some room)

/-- Mock `createRoom`: stores a fresh empty room, no expiry. -/
def createRoom (now : Nat) (roomId : String) : Store × GameState :=
  let room : GameState :=
    { players := [], revealed := false, roomId := roomId,
      createdAt := now, lastActivity := now }
  (some room, room)

/-- Mock `addPlayer`: unlike the durable backend, it stores the given
`player` verbatim in both branches (no `lastSeen` refresh). -/
def addPlayer (now : Nat) (roomId : String) (player : Player) (s : Store) :
    Store × GameState :=
  let got := (getRoom now s).2
  let room :=
    match got with
    | none => (createRoom now roomId).2
    | some r => r
  updateRoom now { room with players := upsertPlayer player room.players }

/-- Mock `updatePlayerVote`: identical logic to the durable backend. -/
def updatePlayerVote (now : Nat) (playerId vote : String) (s : Store) :
    Store × Option GameState :=
  let got := (getRoom now s).2
  match got with
  | none => ((getRoom now s).1, none)
  | some room =>
    let room1 := { room with players := room.players.map (fun p =>
        if p.id == playerId then
          { p with vote := some vote, hasVoted := true, lastSeen := now }
        else p) }
    let res := updateRoom now room1
    (res.1, some res.2)

/-- Mock `toggleReveal`: identical logic to the durable backend. -/
def toggleReveal (now : Nat) (s : Store) : Store × Option GameState :=
  let got := (getRoom now s).2
  match got with
  | none => ((getRoom now s).1, none)
  | some room =>
    let res := updateRoom now { room with revealed := !room.revealed }
    (res.1, some res.2)

/-- Mock `resetVotes`: identical logic to the durable backend. -/
def resetVotes (now : Nat) (s : Store) : Store × Option GameState :=
  let got := (getRoom now s).2
  match got with
  | none => ((getRoom now s).1, none)
  | some room =>
    let room1 := { room with
      players := room.players.map (fun p =>
        { p with vote := none, hasVoted := false, lastSeen := now }),
      revealed := false }
    let res := updateRoom now room1
    (res.1, some res.2)

/-- Mock `updatePlayerHeartbeat`: identical logic to the durable backend. -/
def updatePlayerHeartbeat (now : Nat) (playerId : String) (s : Store) : Store :=
  let got := (getRoom now s).2
  match got with
  | none => (getRoom now s).1
  | some room =>
    (updateRoom now { room with players := room.players.map (fun p =>
        if p.id == playerId then { p with lastSeen := now } else p) }).1

end Mock

/- Request handler (src/app/api/rooms/[roomId]/route.ts). A store or
service call either returns normally or throws; `Except String` models the
thrown exception. A handler returning `Except.error` means the exception
escaped the handler. -/

/-- A serialized response of the route handler. -/
inductive HRes where
  /-- `NextResponse.json(room)` with implicit status 200 (`join` serializes
  whatever `addPlayer` returned, with no null check). -/
  | ok200 (room : Option GameState)
  /-- `NextResponse.json({ error }, { status })`. -/
  | err (status : Nat) (msg : String)
  /-- `NextResponse.json({ success: true })` (heartbeat). -/
  | success
deriving Repr, DecidableEq

/-- The GET handler: no try/catch surrounds the `getRoom` call, so a store
failure propagates out of the handler; absent room becomes a typed 404. -/
def GETh (call : Except String (Option GameState)) : Except String HRes :=
  match call with
  | .error e => .error e
  | .ok none => .ok (.err 404 "Room not found")
  | .ok (some room) => .ok (.ok200 (some room))

/-- The switch inside the POST handler's try block, given the parsed action
tag and the outcome of the service call that action performs. -/
def postSwitch (action : String) (call : Except String (Option GameState)) :
    Except String HRes :=
  match action with
  | "join" =>
    match call with
    | .error e => .error e
    | .ok r => .ok (.ok200 r)
  | "vote" | "reveal" | "reset" =>
    match call with
    | .error e => .error e
    | .ok none => .ok (.err 404 "Room not found")
    | .ok (some room) => .ok (.ok200 (some room))
  | "heartbeat" =>
    match call with
    | .error e => .error e
    | .ok _ => .ok .success
  | _ => .ok (.err 400 "Invalid action")

/-- The POST handler: the whole switch is wrapped in try/catch, and any
thrown error is converted to a generic 500 response. -/
def POSTh (action : String) (call : Except String (Option GameState)) :
    Except String HRes :=
  match postSwitch action call with
  | .error _ => .ok (.err 500 "Internal server error")
  | .ok h => .ok h

/-- Whether a handler outcome is a normal response (no escaped exception). -/
def isOkE : Except String HRes → Bool
  | .ok _ => true
  | .error _ => false

/- Helper lemmas about the embedding. -/

theorem filter_eq_of_length {α : Type} (l : List α) (q : α → Bool)
    (h : (l.filter q).length = l.length) : l.filter q = l :=
  (List.filter_sublist l).eq_of_length h

theorem upsertPlayer_mem_self (fresh : Player) (l : List Player) :
    fresh ∈ upsertPlayer fresh l := by
  induction l with
  | nil => simp [upsertPlayer]
  | cons p ps ih =>
    by_cases h : p.id == fresh.id
    · simp [upsertPlayer, h]
    · simp only [upsertPlayer, h, if_neg]
      exact List.mem_cons_of_mem p ih

theorem upsertPlayer_mem_of_ne (fresh q : Player) (l : List Player)
    (hq : q ∈ l) (hne : q.id ≠ fresh.id) : q ∈ upsertPlayer fresh l := by
  induction l with
  | nil => cases hq
  | cons p ps ih =>
    by_cases h : p.id == fresh.id
    · simp only [upsertPlayer, h, if_pos]
      rcases List.mem_cons.mp hq with rfl | hq2
      · exact absurd (beq_iff_eq.mp h) hne
      · exact List.mem_cons_of_mem _ hq2
    · simp only [upsertPlayer, h, if_neg]
      rcases List.mem_cons.mp hq with rfl | hq2
      · exact List.mem_cons_self _ _
      · exact List.mem_cons_of_mem _ (ih hq2)

theorem upsertPlayer_eq_append (fresh : Player) (l : List Player)
    (h : ∀ p ∈ l, p.id ≠ fresh.id) : upsertPlayer fresh l = l ++ [fresh] := by
  induction l with
  | nil => rfl
  | cons p ps ih =>
    have hp : (p.id == fresh.id) = false :=
      beq_eq_false_iff_ne.mpr (h p (List.mem_cons_self _ _))
    simp only [upsertPlayer, hp, Bool.false_eq_true, if_false, List.cons_append,
      List.cons.injEq, true_and]
    exact ih (fun q hq => h q (List.mem_cons_of_mem _ hq))

theorem upsertPlayer_unique (fresh : Player) (l : List Player)
    (hnd : (l.map Player.id).Nodup) :
    ∀ q ∈ upsertPlayer fresh l, q.id = fresh.id → q = fresh := by
  induction l with
  | nil =>
    intro q hq _
    simpa [upsertPlayer] using hq
  | cons p ps ih =>
    have hnd2 : (ps.map Player.id).Nodup := (List.nodup_cons.mp hnd).2
    have hpid : p.id ∉ ps.map Player.id := (List.nodup_cons.mp hnd).1
    intro q hq hqid
    by_cases h : p.id == fresh.id
    · simp only [upsertPlayer, h, if_pos] at hq
      rcases List.mem_cons.mp hq with rfl | hq2
      · rfl
      · exfalso
        have hq3 : q.id ∈ ps.map Player.id := List.mem_map_of_mem Player.id hq2
        rw [hqid, ← beq_iff_eq.mp h] at hq3
        exact hpid hq3
    · simp only [upsertPlayer, h, if_neg] at hq
      rcases List.mem_cons.mp hq with rfl | hq2
      · exact absurd hqid (by simpa using h)
      · exact ih hnd2 q hq2 hqid

theorem upsertPlayer_ids_subset (fresh : Player) (l : List Player) :
    ((upsertPlayer fresh l).map Player.id) ⊆ fresh.id :: l.map Player.id := by
  induction l with
  | nil => simp [upsertPlayer]
  | cons p ps ih =>
    by_cases h : p.id == fresh.id
    · simp only [upsertPlayer, h, if_pos, List.map_cons]
      intro x hx
      rcases List.mem_cons.mp hx with rfl | hx2
      · exact List.mem_cons_self _ _
      · exact List.mem_cons_of_mem _ (List.mem_cons_of_mem _ hx2)
    · simp only [upsertPlayer, h, if_neg, List.map_cons]
      intro x hx
      rcases List.mem_cons.mp hx with rfl | hx2
      · exact List.mem_cons_of_mem _ (List.mem_cons_self _ _)
      · rcases List.mem_cons.mp (ih hx2) with rfl | hx3
        · exact List.mem_cons_self _ _
        · exact List.mem_cons_of_mem _ (List.mem_cons_of_mem _ hx3)

theorem upsertPlayer_ids_nodup (fresh : Player) (l : List Player)
    (hnd : (l.map Player.id).Nodup) :
    ((upsertPlayer fresh l).map Player.id).Nodup := by
  induction l with
  | nil => simp [upsertPlayer]
  | cons p ps ih =>
    have hnd2 : (ps.map Player.id).Nodup := (List.nodup_cons.mp hnd).2
    have hpid : p.id ∉ ps.map Player.id := (List.nodup_cons.mp hnd).1
    by_cases h : p.id == fresh.id
    · simp only [upsertPlayer, h, if_pos, List.map_cons]
      exact List.nodup_cons.mpr ⟨(beq_iff_eq.mp h) ▸ hpid, hnd2⟩
    · simp only [upsertPlayer, h, if_neg, List.map_cons]
      refine List.nodup_cons.mpr ⟨fun hmem => ?_, ih hnd2⟩
      rcases List.mem_cons.mp (upsertPlayer_ids_subset fresh ps hmem) with heq | hmem2
      · exact absurd heq (by simpa using h)
      · exact hpid hmem2

theorem Redis.getRoom_none (now : Nat) (s : Redis.Store) (hs : s.room = none) :
    Redis.getRoom now s = (s, none) := by
  simp [Redis.getRoom, Redis.kvGet, hs]

theorem Redis.getRoom_split (now : Nat) (s : Redis.Store) (room : GameState)
    (hs : s.room = some room) :
    Redis.getRoom now s =
      if (room.players.filter (isActive now)).length ≠ room.players.length then
        (Redis.kvSetEx now
           { room with players := room.players.filter (isActive now), lastActivity := now },
         some { room with players := room.players.filter (isActive now), lastActivity := now })
      else (s, some room) := by
  simp only [Redis.getRoom, Redis.kvGet, hs]
  rfl

theorem Redis.updatePlayerVote_eq (now : Nat) (pid v : String) (s : Redis.Store)
    (room : GameState) (hs : s.room = some room) :
    Redis.updatePlayerVote now pid v s =
      (Redis.kvSetEx now
        { room with
          players := (room.players.filter (isActive now)).map (fun p =>
            if p.id == pid then { p with vote := some v, hasVoted := true, lastSeen := now }
            else p),
          lastActivity := now },
       some { room with
          players := (room.players.filter (isActive now)).map (fun p =>
            if p.id == pid then { p with vote := some v, hasVoted := true, lastSeen := now }
            else p),
          lastActivity := now }) := by
  have hsplit := Redis.getRoom_split now s room hs
  by_cases hc : (room.players.filter (isActive now)).length ≠ room.players.length
  · rw [if_pos hc] at hsplit
    simp only [Redis.updatePlayerVote, hsplit]
    rfl
  · rw [if_neg hc] at hsplit
    have he : room.players.filter (isActive now) = room.players :=
      filter_eq_of_length _ _ (not_ne_iff.mp hc)
    simp only [Redis.updatePlayerVote, hsplit, he]
    rfl

theorem Redis.updatePlayerVote_none (now : Nat) (pid v : String) (s : Redis.Store)
    (hs : s.room = none) : Redis.updatePlayerVote now pid v s = (s, none) := by
  simp [Redis.updatePlayerVote, Redis.getRoom_none now s hs]

theorem Redis.toggleReveal_eq (now : Nat) (s : Redis.Store)
    (room : GameState) (hs : s.room = some room) :
    Redis.toggleReveal now s =
      (Redis.kvSetEx now
        { room with
          players := room.players.filter (isActive now),
          revealed := !room.revealed, lastActivity := now },
       some { room with
          players := room.players.filter (isActive now),
          revealed := !room.revealed, lastActivity := now }) := by
  have hsplit := Redis.getRoom_split now s room hs
  by_cases hc : (room.players.filter (isActive now)).length ≠ room.players.length
  · rw [if_pos hc] at hsplit
    simp only [Redis.toggleReveal, hsplit]
    rfl
  · rw [if_neg hc] at hsplit
    have he : room.players.filter (isActive now) = room.players :=
      filter_eq_of_length _ _ (not_ne_iff.mp hc)
    simp only [Redis.toggleReveal, hsplit, he]
    rfl

theorem Redis.toggleReveal_none (now : Nat) (s : Redis.Store)
    (hs : s.room = none) : Redis.toggleReveal now s = (s, none) := by
  simp [Redis.toggleReveal, Redis.getRoom_none now s hs]

theorem Redis.resetVotes_eq (now : Nat) (s : Redis.Store)
    (room : GameState) (hs : s.room = some room) :
    Redis.resetVotes now s =
      (Redis.kvSetEx now
        { room with
          players := (room.players.filter (isActive now)).map (fun p =>
            { p with vote := none, hasVoted := false, lastSeen := now }),
          revealed := false, lastActivity := now },
       some { room with
          players := (room.players.filter (isActive now)).map (fun p =>
            { p with vote := none, hasVoted := false, lastSeen := now }),
          revealed := false, lastActivity := now }) := by
  have hsplit := Redis.getRoom_split now s room hs
  by_cases hc : (room.players.filter (isActive now)).length ≠ room.players.length
  · rw [if_pos hc] at hsplit
    simp only [Redis.resetVotes, hsplit]
    rfl
  · rw [if_neg hc] at hsplit
    have he : room.players.filter (isActive now) = room.players :=
      filter_eq_of_length _ _ (not_ne_iff.mp hc)
    simp only [Redis.resetVotes, hsplit, he]
    rfl

theorem Redis.resetVotes_none (now : Nat) (s : Redis.Store)
    (hs : s.room = none) : Redis.resetVotes now s = (s, none) := by
  simp [Redis.resetVotes, Redis.getRoom_none now s hs]

theorem Redis.updatePlayerHeartbeat_eq (now : Nat) (pid : String) (s : Redis.Store)
    (room : GameState) (hs : s.room = some room) :
    Redis.updatePlayerHeartbeat now pid s =
      Redis.kvSetEx now
        { room with
          players := (room.players.filter (isActive now)).map (fun p =>
            if p.id == pid then { p with lastSeen := now } else p),
          lastActivity := now } := by
  have hsplit := Redis.getRoom_split now s room hs
  by_cases hc : (room.players.filter (isActive now)).length ≠ room.players.length
  · rw [if_pos hc] at hsplit
    simp only [Redis.updatePlayerHeartbeat, hsplit]
    rfl
  · rw [if_neg hc] at hsplit
    have he : room.players.filter (isActive now) = room.players :=
      filter_eq_of_length _ _ (not_ne_iff.mp hc)
    simp only [Redis.updatePlayerHeartbeat, hsplit, he]
    rfl

theorem Redis.updatePlayerHeartbeat_none (now : Nat) (pid : String) (s : Redis.Store)
    (hs : s.room = none) : Redis.updatePlayerHeartbeat now pid s = s := by
  simp [Redis.updatePlayerHeartbeat, Redis.getRoom_none now s hs]

theorem Redis.addPlayer_eq (now : Nat) (rid : String) (player : Player) (s : Redis.Store)
    (room : GameState) (hs : s.room = some room) :
    Redis.addPlayer now rid player s =
      (Redis.kvSetEx now
        { room with
          players := upsertPlayer { player with lastSeen := now }
            (room.players.filter (isActive now)),
          lastActivity := now },
       { room with
          players := upsertPlayer { player with lastSeen := now }
            (room.players.filter (isActive now)),
          lastActivity := now }) := by
  have hsplit := Redis.getRoom_split now s room hs
  by_cases hc : (room.players.filter (isActive now)).length ≠ room.players.length
  · rw [if_pos hc] at hsplit
    simp only [Redis.addPlayer, hsplit]
    rfl
  · rw [if_neg hc] at hsplit
    have he : room.players.filter (isActive now) = room.players :=
      filter_eq_of_length _ _ (not_ne_iff.mp hc)
    simp only [Redis.addPlayer, hsplit, he]
    rfl

theorem Redis.addPlayer_none (now : Nat) (rid : String) (player : Player) (s : Redis.Store)
    (hs : s.room = none) :
    Redis.addPlayer now rid player s =
      (Redis.kvSetEx now
        { players := [{ player with lastSeen := now }], revealed := false,
          roomId := rid, createdAt := now, lastActivity := now },
       { players := [{ player with lastSeen := now }], revealed := false,
          roomId := rid, createdAt := now, lastActivity := now }) := by
  simp only [Redis.addPlayer, Redis.getRoom_none now s hs]
  rfl

theorem mockGetRoom_none (now : Nat) : Mock.getRoom now none = (none, none) := rfl

theorem mockGetRoom_split (now : Nat) (room : GameState) :
    Mock.getRoom now (some room) =
      if (room.players.filter (isActive now)).length ≠ room.players.length then
        (some { room with
           players := room.players.filter (isActive now), lastActivity := now },
         some { room with
           players := room.players.filter (isActive now), lastActivity := now })
      else (some room, some room) := by
  simp only [Mock.getRoom]
  rfl

theorem mockUpdatePlayerVote_eq (now : Nat) (pid v : String) (room : GameState) :
    Mock.updatePlayerVote now pid v (some room) =
      (some { room with
          players := (room.players.filter (isActive now)).map (fun p =>
            if p.id == pid then { p with vote := some v, hasVoted := true, lastSeen := now }
            else p),
          lastActivity := now },
       some { room with
          players := (room.players.filter (isActive now)).map (fun p =>
            if p.id == pid then { p with vote := some v, hasVoted := true, lastSeen := now }
            else p),
          lastActivity := now }) := by
  have hsplit := mockGetRoom_split now room
  by_cases hc : (room.players.filter (isActive now)).length ≠ room.players.length
  · rw [if_pos hc] at hsplit
    simp only [Mock.updatePlayerVote, hsplit]
    rfl
  · rw [if_neg hc] at hsplit
    have he : room.players.filter (isActive now) = room.players :=
      filter_eq_of_length _ _ (not_ne_iff.mp hc)
    simp only [Mock.updatePlayerVote, hsplit, he]
    rfl

theorem mockUpdatePlayerVote_none (now : Nat) (pid v : String) :
    Mock.updatePlayerVote now pid v none = (none, none) := rfl

theorem mockToggleReveal_eq (now : Nat) (room : GameState) :
    Mock.toggleReveal now (some room) =
      (some { room with
          players := room.players.filter (isActive now),
          revealed := !room.revealed, lastActivity := now },
       some { room with
          players := room.players.filter (isActive now),
          revealed := !room.revealed, lastActivity := now }) := by
  have hsplit := mockGetRoom_split now room
  by_cases hc : (room.players.filter (isActive now)).length ≠ room.players.length
  · rw [if_pos hc] at hsplit
    simp only [Mock.toggleReveal, hsplit]
    rfl
  · rw [if_neg hc] at hsplit
    have he : room.players.filter (isActive now) = room.players :=
      filter_eq_of_length _ _ (not_ne_iff.mp hc)
    simp only [Mock.toggleReveal, hsplit, he]
    rfl

theorem mockToggleReveal_none (now : Nat) :
    Mock.toggleReveal now none = (none, none) := rfl

theorem mockResetVotes_eq (now : Nat) (room : GameState) :
    Mock.resetVotes now (some room) =
      (some { room with
          players := (room.players.filter (isActive now)).map (fun p =>
            { p with vote := none, hasVoted := false, lastSeen := now }),
          revealed := false, lastActivity := now },
       some { room with
          players := (room.players.filter (isActive now)).map (fun p =>
            { p with vote := none, hasVoted := false, lastSeen := now }),
          revealed := false, lastActivity := now }) := by
  have hsplit := mockGetRoom_split now room
  by_cases hc : (room.players.filter (isActive now)).length ≠ room.players.length
  · rw [if_pos hc] at hsplit
    simp only [Mock.resetVotes, hsplit]
    rfl
  · rw [if_neg hc] at hsplit
    have he : room.players.filter (isActive now) = room.players :=
      filter_eq_of_length _ _ (not_ne_iff.mp hc)
    simp only [Mock.resetVotes, hsplit, he]
    rfl

theorem mockResetVotes_none (now : Nat) :
    Mock.resetVotes now none = (none, none) := rfl

theorem mockUpdatePlayerHeartbeat_eq (now : Nat) (pid : String) (room : GameState) :
    Mock.updatePlayerHeartbeat now pid (some room) =
      some { room with
        players := (room.players.filter (isActive now)).map (fun p =>
          if p.id == pid then { p with lastSeen := now } else p),
        lastActivity := now } := by
  have hsplit := mockGetRoom_split now room
  by_cases hc : (room.players.filter (isActive now)).length ≠ room.players.length
  · rw [if_pos hc] at hsplit
    simp only [Mock.updatePlayerHeartbeat, hsplit]
    rfl
  · rw [if_neg hc] at hsplit
    have he : room.players.filter (isActive now) = room.players :=
      filter_eq_of_length _ _ (not_ne_iff.mp hc)
    simp only [Mock.updatePlayerHeartbeat, hsplit, he]
    rfl

theorem mockUpdatePlayerHeartbeat_none (now : Nat) (pid : String) :
    Mock.updatePlayerHeartbeat now pid none = none := rfl

theorem mockAddPlayer_eq (now : Nat) (rid : String) (player : Player) (room : GameState) :
    Mock.addPlayer now rid player (some room) =
      (some { room with
          players := upsertPlayer player (room.players.filter (isActive now)),
          lastActivity := now },
       { room with
          players := upsertPlayer player (room.players.filter (isActive now)),
          lastActivity := now }) := by
  have hsplit := mockGetRoom_split now room
  by_cases hc : (room.players.filter (isActive now)).length ≠ room.players.length
  · rw [if_pos hc] at hsplit
    simp only [Mock.addPlayer, hsplit]
    rfl
  · rw [if_neg hc] at hsplit
    have he : room.players.filter (isActive now) = room.players :=
      filter_eq_of_length _ _ (not_ne_iff.mp hc)
    simp only [Mock.addPlayer, hsplit, he]
    rfl

theorem mockAddPlayer_none (now : Nat) (rid : String) (player : Player) :
    Mock.addPlayer now rid player none =
      (some { players := [player], revealed := false,
              roomId := rid, createdAt := now, lastActivity := now },
       { players := [player], revealed := false,
         roomId := rid, createdAt := now, lastActivity := now }) := rfl

theorem Redis.getRoom_retPlayers (now : Nat) (s : Redis.Store) (room : GameState)
    (hs : s.room = some room) :
    retPlayers (Redis.getRoom now s).2 = room.players.filter (isActive now) := by
  have hsplit := Redis.getRoom_split now s room hs
  by_cases hc : (room.players.filter (isActive now)).length ≠ room.players.length
  · rw [if_pos hc] at hsplit
    rw [hsplit]
    rfl
  · rw [if_neg hc] at hsplit
    have he : room.players.filter (isActive now) = room.players :=
      filter_eq_of_length _ _ (not_ne_iff.mp hc)
    rw [hsplit, he]
    rfl

theorem mockGetRoom_retPlayers (now : Nat) (room : GameState) :
    retPlayers (Mock.getRoom now (some room)).2 = room.players.filter (isActive now) := by
  have hsplit := mockGetRoom_split now room
  by_cases hc : (room.players.filter (isActive now)).length ≠ room.players.length
  · rw [if_pos hc] at hsplit
    rw [hsplit]
    rfl
  · rw [if_neg hc] at hsplit
    have he : room.players.filter (isActive now) = room.players :=
      filter_eq_of_length _ _ (not_ne_iff.mp hc)
    rw [hsplit, he]
    rfl

theorem Redis.getRoom_persist (now : Nat) (s : Redis.Store) (room : GameState)
    (hs : s.room = some room) :
    (Redis.getRoom now s).1.room = (Redis.getRoom now s).2 := by
  have hsplit := Redis.getRoom_split now s room hs
  by_cases hc : (room.players.filter (isActive now)).length ≠ room.players.length
  · rw [if_pos hc] at hsplit
    rw [hsplit]
    rfl
  · rw [if_neg hc] at hsplit
    rw [hsplit]
    exact hs

theorem Redis.getRoom_noop (now : Nat) (s : Redis.Store) (room : GameState)
    (hs : s.room = some room) (hact : ∀ p ∈ room.players, isActive now p) :
    Redis.getRoom now s = (s, some room) := by
  have he : room.players.filter (isActive now) = room.players :=
    List.filter_eq_self.mpr hact
  have hsplit := Redis.getRoom_split now s room hs
  rw [if_neg (not_ne_iff.mpr (by rw [he]))] at hsplit
  exact hsplit

theorem Redis.getRoom_idem (now : Nat) (s : Redis.Store) :
    Redis.getRoom now (Redis.getRoom now s).1 =
      ((Redis.getRoom now s).1, (Redis.getRoom now s).2) := by
  cases hs : s.room with
  | none =>
    rw [Redis.getRoom_none now s hs]
    exact Redis.getRoom_none now s hs
  | some room =>
    have hsplit := Redis.getRoom_split now s room hs
    by_cases hc : (room.players.filter (isActive now)).length ≠ room.players.length
    · rw [if_pos hc] at hsplit
      rw [hsplit]
      exact Redis.getRoom_noop now _ _ rfl
        (fun p hp => (List.mem_filter.mp hp).2)
    · rw [if_neg hc] at hsplit
      rw [hsplit]
      have he : room.players.filter (isActive now) = room.players :=
        filter_eq_of_length _ _ (not_ne_iff.mp hc)
      exact Redis.getRoom_noop now s room hs (List.filter_eq_self.mp he)

/- Concrete data used by witnesses and counterexamples. -/

/-- A participant seen 1 ms after the epoch: still active at `now = 300000`. -/
def pAnn : Player :=
  { id := "pa", name := "Ann", vote := some "5", hasVoted := true, lastSeen := 1 }

/-- A participant seen at the epoch: exactly at the threshold when
`now = 300000`, hence stale. -/
def pStale : Player :=
  { id := "ps", name := "Sam", vote := some "8", hasVoted := true, lastSeen := 0 }

/-- A stored room holding one active and one stale participant. -/
def roomW : GameState :=
  { players := [pAnn, pStale], revealed := true, roomId := "r1",
    createdAt := 0, lastActivity := 0 }

/-- The store cell holding `roomW`. -/
def sW : Redis.Store := { room := some roomW, expiresAt := none }

/-- C4: for every existing room, fetch (`getRoom`) returns exactly the
participants whose `now - lastSeen` is within the 5-minute threshold, the
stored record equals the returned one (so a pruned list is persisted
immediately whenever it is smaller), and pruning is idempotent: an
immediate second fetch leaves the store unchanged and yields the identical
participant set. -/
theorem getRoom_fetch_spec (now : Nat) (s : Redis.Store) :
    (∀ room, s.room = some room →
      retPlayers (Redis.getRoom now s).2 = room.players.filter (isActive now) ∧
      (∀ p ∈ retPlayers (Redis.getRoom now s).2,
        now - p.lastSeen < PLAYER_TIMEOUT * 1000) ∧
      (Redis.getRoom now s).1.room = (Redis.getRoom now s).2) ∧
    Redis.getRoom now (Redis.getRoom now s).1 =
      ((Redis.getRoom now s).1, (Redis.getRoom now s).2) := by
  refine ⟨fun room hs => ⟨Redis.getRoom_retPlayers now s room hs, ?_,
    Redis.getRoom_persist now s room hs⟩, Redis.getRoom_idem now s⟩
  intro p hp
  rw [Redis.getRoom_retPlayers now s room hs] at hp
  have h2 := (List.mem_filter.mp hp).2
  simpa [isActive] using h2

/-- Witness for C4 at a concrete store: the stale participant is dropped
and only the active one is returned, and a second fetch is a no-op. -/
theorem getRoom_fetch_spec_witness :
    retPlayers (Redis.getRoom 300000 sW).2 = [pAnn] ∧
    Redis.getRoom 300000 (Redis.getRoom 300000 sW).1 =
      ((Redis.getRoom 300000 sW).1, (Redis.getRoom 300000 sW).2) := by
  have h := getRoom_fetch_spec 300000 sW
  refine ⟨?_, h.2⟩
  rw [(h.1 roomW rfl).1]
  rfl

/-- C10: the staleness test is a strict inequality: a participant whose
`now - lastSeen` equals exactly the 5-minute threshold (300000 ms) is
pruned by fetch in both store implementations, and only participants
strictly younger than the threshold survive. -/
theorem prune_threshold_strict (now : Nat) (s : Redis.Store) (room : GameState)
    (p : Player) (hs : s.room = some room) (_hp : p ∈ room.players)
    (hb : now - p.lastSeen = PLAYER_TIMEOUT * 1000) :
    p ∉ retPlayers (Redis.getRoom now s).2 ∧
    p ∉ retPlayers (Mock.getRoom now (some room)).2 ∧
    ∀ q ∈ retPlayers (Redis.getRoom now s).2,
      now - q.lastSeen < PLAYER_TIMEOUT * 1000 := by
  have hact : isActive now p = false := by
    simp [isActive, hb]
  refine ⟨?_, ?_, ?_⟩
  · rw [Redis.getRoom_retPlayers now s room hs]
    intro hmem
    have := (List.mem_filter.mp hmem).2
    rw [hact] at this
    exact Bool.false_ne_true this
  · rw [mockGetRoom_retPlayers now room]
    intro hmem
    have := (List.mem_filter.mp hmem).2
    rw [hact] at this
    exact Bool.false_ne_true this
  · intro q hq
    rw [Redis.getRoom_retPlayers now s room hs] at hq
    have h2 := (List.mem_filter.mp hq).2
    simpa [isActive] using h2

/-- Witness for C10: the participant last seen exactly 300000 ms ago is
absent from the fetched room. -/
theorem prune_threshold_strict_witness :
    pStale ∉ retPlayers (Redis.getRoom 300000 sW).2 :=
  (prune_threshold_strict 300000 sW roomW pStale rfl (by decide) (by decide)).1

/-- C5: `toggleReveal` flips the reveal flag (a toggle, not set-true), and
applying it twice with no elapsed time restores the room's reveal flag to
its original value. -/
theorem toggleReveal_involution (now : Nat) (s : Redis.Store) (room : GameState)
    (hs : s.room = some room) :
    retRevealed (Redis.toggleReveal now s).2 = some (!room.revealed) ∧
    retRevealed (Redis.toggleReveal now (Redis.toggleReveal now s).1).2 =
      some room.revealed := by
  have h1 := Redis.toggleReveal_eq now s room hs
  constructor
  · rw [h1]
    rfl
  · have hst : (Redis.toggleReveal now s).1 =
        Redis.kvSetEx now
          { room with
            players := room.players.filter (isActive now),
            revealed := !room.revealed, lastActivity := now } := by
      rw [h1]
    rw [hst, Redis.toggleReveal_eq now _ _ rfl]
    simp [retRevealed]

/-- Witness for C5: toggling twice on a concrete revealed room first hides
and then restores the flag. -/
theorem toggleReveal_involution_witness :
    retRevealed (Redis.toggleReveal 300000 sW).2 = some false ∧
    retRevealed (Redis.toggleReveal 300000 (Redis.toggleReveal 300000 sW).1).2 =
      some true :=
  toggleReveal_involution 300000 sW roomW rfl

/-- C3: after `resetVotes` on an existing room every returned participant
has a cleared vote, a cleared has-voted flag and a refreshed last-seen
stamp, and the reveal flag is false; on an absent room it returns the
not-found signal and leaves the store untouched. -/
theorem resetVotes_spec (now : Nat) (s : Redis.Store) :
    (s.room = none → Redis.resetVotes now s = (s, none)) ∧
    (∀ room, s.room = some room →
      retRevealed (Redis.resetVotes now s).2 = some false ∧
      ∀ p ∈ retPlayers (Redis.resetVotes now s).2,
        p.vote = none ∧ p.hasVoted = false ∧ p.lastSeen = now) := by
  refine ⟨fun hs => Redis.resetVotes_none now s hs, fun room hs => ?_⟩
  have h1 := Redis.resetVotes_eq now s room hs
  refine ⟨by rw [h1]; rfl, ?_⟩
  intro p hp
  rw [h1] at hp
  simp only [retPlayers, List.mem_map] at hp
  obtain ⟨q, _, rfl⟩ := hp
  exact ⟨rfl, rfl, rfl⟩

/-- The active participant of `roomW` as `resetVotes` at `now = 300000`
rewrites it. -/
def pAnnReset : Player :=
  { id := "pa", name := "Ann", vote := none, hasVoted := false, lastSeen := 300000 }

/-- Witness for C3: resetting the concrete room clears the reveal flag and
yields the active participant with cleared vote state. -/
theorem resetVotes_spec_witness :
    retRevealed (Redis.resetVotes 300000 sW).2 = some false ∧
    pAnnReset.vote = none := by
  have h := (resetVotes_spec 300000 sW).2 roomW rfl
  exact ⟨h.1, (h.2 pAnnReset (by decide)).1⟩

theorem map_id_on_members {α : Type} (l : List α) (f : α → α)
    (h : ∀ a ∈ l, f a = a) : l.map f = l := by
  induction l with
  | nil => rfl
  | cons x xs ih =>
    rw [List.map_cons, h x (List.mem_cons_self _ _),
      ih (fun a ha => h a (List.mem_cons_of_mem _ ha))]

/-- The room stored for the counterexamples of C1: its only participant is
exactly at the staleness threshold when `now = 300000`. -/
def roomC1 : GameState :=
  { players := [pStale], revealed := false, roomId := "rc1",
    createdAt := 0, lastActivity := 0 }

/-- Store cell holding `roomC1`. -/
def sC1 : Redis.Store := { room := some roomC1, expiresAt := none }

/-- Counterexample to C1 as stated: the record for the room exists and
contains a participant with id "ps", yet after `updatePlayerVote` the
returned room contains no participant at all — the fetch step pruned the
participant (its `now - lastSeen` reached the threshold) instead of
leaving it with vote "3", so the claimed conclusion fails. -/
theorem updatePlayerVote_claim_cex :
    sC1.room = some roomC1 ∧
    roomC1.players.any (fun p => p.id == "ps") = true ∧
    retPlayers (Redis.updatePlayerVote 300000 "ps" "3" sC1).2 = [] :=
  ⟨rfl, rfl, by decide⟩

/-- C1 (amended): on an absent room `updatePlayerVote` returns the
not-found signal and creates no room; on an existing room the fetch step
first prunes participants whose `now - lastSeen` has reached the 5-minute
threshold; a surviving participant with the given id reappears updated
with the vote, has-voted = true and last-seen = now, every other surviving
participant reappears untouched, and when no surviving participant matches
the id, the surviving participant list is returned unchanged — with no
error in any case. -/
theorem updatePlayerVote_spec (now : Nat) (pid v : String) (s : Redis.Store) :
    (s.room = none → Redis.updatePlayerVote now pid v s = (s, none)) ∧
    (∀ room, s.room = some room →
      (∀ p ∈ room.players.filter (isActive now),
        (p.id = pid →
          { p with vote := some v, hasVoted := true, lastSeen := now }
            ∈ retPlayers (Redis.updatePlayerVote now pid v s).2) ∧
        (p.id ≠ pid → p ∈ retPlayers (Redis.updatePlayerVote now pid v s).2)) ∧
      ((∀ p ∈ room.players.filter (isActive now), p.id ≠ pid) →
        retPlayers (Redis.updatePlayerVote now pid v s).2 =
          room.players.filter (isActive now))) := by
  refine ⟨fun hs => Redis.updatePlayerVote_none now pid v s hs, fun room hs => ?_⟩
  have h1 := Redis.updatePlayerVote_eq now pid v s room hs
  constructor
  · intro p hp
    constructor
    · intro hpid
      rw [h1]
      simp only [retPlayers]
      refine List.mem_map.mpr ⟨p, hp, ?_⟩
      rw [if_pos (beq_iff_eq.mpr hpid)]
    · intro hpid
      rw [h1]
      simp only [retPlayers]
      refine List.mem_map.mpr ⟨p, hp, ?_⟩
      rw [if_neg (by simpa using hpid)]
  · intro hall
    rw [h1]
    simp only [retPlayers]
    exact map_id_on_members _ _
      (fun p hp => by rw [if_neg (by simpa using hall p hp)])

/-- An active participant who has not voted yet, member of `roomV`. -/
def pBob : Player :=
  { id := "pb", name := "Bob", vote := none, hasVoted := false, lastSeen := 2 }

/-- A stored room with two active participants, used by witnesses. -/
def roomV : GameState :=
  { players := [pAnn, pBob], revealed := false, roomId := "rv",
    createdAt := 0, lastActivity := 0 }

/-- Store cell holding `roomV`. -/
def sV : Redis.Store := { room := some roomV, expiresAt := none }

/-- `pBob` as `updatePlayerVote 300000 "pb" "8"` rewrites him. -/
def pBobVoted : Player :=
  { id := "pb", name := "Bob", vote := some "8", hasVoted := true, lastSeen := 300000 }

/-- Witness for the amended C1: voting for "pb" updates him and leaves the
other active participant untouched. -/
theorem updatePlayerVote_spec_witness :
    pBobVoted ∈ retPlayers (Redis.updatePlayerVote 300000 "pb" "8" sV).2 ∧
    pAnn ∈ retPlayers (Redis.updatePlayerVote 300000 "pb" "8" sV).2 := by
  have h := (updatePlayerVote_spec 300000 "pb" "8" sV).2 roomV rfl
  exact ⟨(h.1 pBob (by decide)).1 rfl, (h.1 pAnn (by decide)).2 (by decide)⟩

/-- Replacing the lastSeen of a route-built fresh participant by the same
`now` is the identity. -/
theorem Redis.freshPlayer_lastSeen (now : Nat) (pid name : String) :
    { Redis.freshPlayer now pid name with lastSeen := now } =
      Redis.freshPlayer now pid name := rfl

/-- C2: `join` auto-creates the room when no record exists, yielding a new
room with exactly the one fresh participant; on an existing room the fresh
participant (given name, null vote, has-voted = false, last-seen = now) is
present afterwards, every other active participant is kept, any previous
entry with that id is superseded (under the id-uniqueness invariant the
only entry with that id is the fresh one, so prior vote state is
discarded), and when the id is absent the fresh participant is appended;
the updated room is persisted and returned. -/
theorem joinRoom_spec (now : Nat) (rid pid name : String) (s : Redis.Store) :
    (s.room = none →
      (Redis.joinRoom now rid pid name s).2.players =
        [Redis.freshPlayer now pid name] ∧
      (Redis.joinRoom now rid pid name s).2.createdAt = now ∧
      (Redis.joinRoom now rid pid name s).1.room =
        some (Redis.joinRoom now rid pid name s).2) ∧
    (∀ room, s.room = some room →
      Redis.freshPlayer now pid name ∈ (Redis.joinRoom now rid pid name s).2.players ∧
      (∀ p ∈ room.players.filter (isActive now), p.id ≠ pid →
        p ∈ (Redis.joinRoom now rid pid name s).2.players) ∧
      (((room.players.filter (isActive now)).map Player.id).Nodup →
        ∀ q ∈ (Redis.joinRoom now rid pid name s).2.players, q.id = pid →
          q = Redis.freshPlayer now pid name) ∧
      ((∀ p ∈ room.players.filter (isActive now), p.id ≠ pid) →
        (Redis.joinRoom now rid pid name s).2.players =
          room.players.filter (isActive now) ++ [Redis.freshPlayer now pid name]) ∧
      (Redis.joinRoom now rid pid name s).1.room =
        some (Redis.joinRoom now rid pid name s).2) := by
  constructor
  · intro hs
    have h := Redis.addPlayer_none now rid (Redis.freshPlayer now pid name) s hs
    simp only [Redis.joinRoom]
    rw [h]
    exact ⟨rfl, rfl, rfl⟩
  · intro room hs
    have h := Redis.addPlayer_eq now rid (Redis.freshPlayer now pid name) s room hs
    rw [Redis.freshPlayer_lastSeen] at h
    simp only [Redis.joinRoom]
    rw [h]
    refine ⟨upsertPlayer_mem_self _ _, ?_, ?_, ?_, rfl⟩
    · intro p hp hne
      exact upsertPlayer_mem_of_ne _ p _ hp hne
    · intro hnd q hq hqid
      exact upsertPlayer_unique _ _ hnd q hq hqid
    · intro hall
      exact upsertPlayer_eq_append _ _ hall

/-- The empty store cell: no record for the room. -/
def sEmpty : Redis.Store := { room := none, expiresAt := none }

/-- Witness for C2: joining into a nonexistent room creates it with exactly
one participant, and joining into an existing room adds the fresh entry. -/
theorem joinRoom_spec_witness :
    (Redis.joinRoom 7 "r2" "p1" "Alice" sEmpty).2.players =
      [Redis.freshPlayer 7 "p1" "Alice"] ∧
    Redis.freshPlayer 300000 "pb" "Bobby" ∈
      (Redis.joinRoom 300000 "rv" "pb" "Bobby" sV).2.players :=
  ⟨((joinRoom_spec 7 "r2" "p1" "Alice" sEmpty).1 rfl).1,
   ((joinRoom_spec 300000 "rv" "pb" "Bobby" sV).2 roomV rfl).1⟩

/-- Counterexample to C7 as stated: on a store holding a stale participant,
`getRoom` both writes (the store changes) and returns a participant list
different from the stored one — it is not the raw no-write, no-prune get
the claim describes. -/
theorem getRoom_writes_cex :
    sW.room = some roomW ∧
    (Redis.getRoom 300000 sW).1 ≠ sW ∧
    retPlayers (Redis.getRoom 300000 sW).2 ≠ roomW.players :=
  ⟨rfl, by decide, by decide⟩

/-- C7 (amended): the raw backend get (`kv.get`) returns the stored record
verbatim and, being a pure read, performs no write; the repository's
`getRoom` additionally prunes stale participants and may write back, but
whenever every stored participant is active it performs no write and
returns the participant list exactly as stored. -/
theorem rawGet_no_prune (now : Nat) (s : Redis.Store) :
    Redis.kvGet s = s.room ∧
    (∀ room, s.room = some room → (∀ p ∈ room.players, isActive now p) →
      Redis.getRoom now s = (s, some room)) :=
  ⟨rfl, fun room hs hact => Redis.getRoom_noop now s room hs hact⟩

/-- A stored room whose only participant is active at `now = 100`. -/
def roomAct : GameState :=
  { players := [pAnn], revealed := false, roomId := "ra",
    createdAt := 0, lastActivity := 0 }

/-- Store cell holding `roomAct`. -/
def sAct : Redis.Store := { room := some roomAct, expiresAt := none }

/-- Witness for the amended C7: with every participant active, `getRoom`
returns the stored room and leaves the store untouched. -/
theorem rawGet_no_prune_witness :
    Redis.getRoom 100 sAct = (sAct, some roomAct) :=
  (rawGet_no_prune 100 sAct).2 roomAct rfl (by decide)

/-- Counterexample to C9 as stated: a store failure during the GET
handler's room fetch is not caught — the exception escapes the handler
instead of being surfaced as a generic internal-failure response. -/
theorem get_handler_escape_cex :
    GETh (Except.error "kv failure") = Except.error "kv failure" ∧
    isOkE (GETh (Except.error "kv failure")) = false :=
  ⟨rfl, rfl⟩

/-- C9 (amended): store/service failures raised inside any POST action are
caught by the POST handler's try/catch and surfaced as a generic 500
internal-failure response, and the POST handler never lets an exception
escape; the GET handler has no try/catch, so a store failure during the
room-state fetch escapes it; domain-level not-found is surfaced as a typed
404 response, distinct from the generic internal failure. -/
theorem route_error_boundary (action : String) (e : String)
    (call : Except String (Option GameState)) (room : GameState) :
    (action ∈ ["join", "vote", "reveal", "reset", "heartbeat"] →
      POSTh action (Except.error e) =
        Except.ok (HRes.err 500 "Internal server error")) ∧
    isOkE (POSTh action call) = true ∧
    GETh (Except.error e) = Except.error e ∧
    GETh (Except.ok none) = Except.ok (HRes.err 404 "Room not found") ∧
    GETh (Except.ok (some room)) = Except.ok (HRes.ok200 (some room)) ∧
    POSTh "vote" (Except.ok none) = Except.ok (HRes.err 404 "Room not found") ∧
    (HRes.err 404 "Room not found" ≠ HRes.err 500 "Internal server error") := by
  refine ⟨?_, ?_, rfl, rfl, rfl, rfl, by decide⟩
  · intro hmem
    fin_cases hmem <;> rfl
  · cases hps : postSwitch action call with
    | error e2 => simp [POSTh, hps, isOkE]
    | ok h => simp [POSTh, hps, isOkE]

/-- Witness for the amended C9: a concrete store failure during a POST
vote action is converted to the generic 500 response. -/
theorem route_error_boundary_witness :
    POSTh "vote" (Except.error "kv failure") =
      Except.ok (HRes.err 500 "Internal server error") :=
  (route_error_boundary "vote" "kv failure" (Except.ok none) roomW).1 (by decide)

/-- A participant record whose lastSeen predates the call instant, as a
caller other than the route could pass to `addPlayer`. -/
def pLate : Player :=
  { id := "pl", name := "Lee", vote := some "2", hasVoted := true, lastSeen := 50 }

/-- Counterexample to C8 as stated: starting from the same (empty) stored
record, `addPlayer` at `now = 100` stores different participant lists in
the two implementations — the durable backend refreshes the participant's
lastSeen to now, the mock stores the given record verbatim. -/
theorem backend_mock_divergence_cex :
    (({ room := none, expiresAt := none } : Redis.Store)).room = (none : Mock.Store) ∧
    (Redis.addPlayer 100 "r8" pLate { room := none, expiresAt := none }).2.players ≠
      (Mock.addPlayer 100 "r8" pLate none).2.players :=
  ⟨rfl, by decide⟩

/-- C8 (amended): when the two implementations hold the same stored record,
they return the same value and store the same record for getRoom,
createRoom, updateRoom, updatePlayerVote, toggleReveal, resetVotes and
updatePlayerHeartbeat, and for addPlayer whenever the given participant's
lastSeen already equals now (which the route's join construction
guarantees); they deliberately differ in expiry metadata — the durable
backend stamps a fresh TTL deadline on every write while the mock stores
none — and in addPlayer's lastSeen refresh on arbitrary input. -/
theorem backend_mock_equiv (now : Nat) (rid pid v : String) (player : Player)
    (s : Redis.Store) (m : Mock.Store) (h : s.room = m) :
    (Redis.getRoom now s).1.room = (Mock.getRoom now m).1 ∧
    (Redis.getRoom now s).2 = (Mock.getRoom now m).2 ∧
    (Redis.createRoom now rid).1.room = (Mock.createRoom now rid).1 ∧
    (Redis.createRoom now rid).2 = (Mock.createRoom now rid).2 ∧
    (∀ g : GameState, (Redis.updateRoom now g).1.room = (Mock.updateRoom now g).1 ∧
      (Redis.updateRoom now g).2 = (Mock.updateRoom now g).2) ∧
    (Redis.updatePlayerVote now pid v s).1.room =
      (Mock.updatePlayerVote now pid v m).1 ∧
    (Redis.updatePlayerVote now pid v s).2 = (Mock.updatePlayerVote now pid v m).2 ∧
    (Redis.toggleReveal now s).1.room = (Mock.toggleReveal now m).1 ∧
    (Redis.toggleReveal now s).2 = (Mock.toggleReveal now m).2 ∧
    (Redis.resetVotes now s).1.room = (Mock.resetVotes now m).1 ∧
    (Redis.resetVotes now s).2 = (Mock.resetVotes now m).2 ∧
    (Redis.updatePlayerHeartbeat now pid s).room =
      Mock.updatePlayerHeartbeat now pid m ∧
    (player.lastSeen = now →
      (Redis.addPlayer now rid player s).1.room = (Mock.addPlayer now rid player m).1 ∧
      (Redis.addPlayer now rid player s).2 = (Mock.addPlayer now rid player m).2) := by
  subst h
  cases hs : s.room with
  | none =>
    have hg := Redis.getRoom_none now s hs
    refine ⟨?_, ?_, rfl, rfl, fun g => ⟨rfl, rfl⟩, ?_, ?_, ?_, ?_, ?_, ?_, ?_, ?_⟩
    · rw [hg, mockGetRoom_none]
      exact hs
    · rw [hg, mockGetRoom_none]
    · rw [Redis.updatePlayerVote_none now pid v s hs, mockUpdatePlayerVote_none]
      exact hs
    · rw [Redis.updatePlayerVote_none now pid v s hs, mockUpdatePlayerVote_none]
    · rw [Redis.toggleReveal_none now s hs, mockToggleReveal_none]
      exact hs
    · rw [Redis.toggleReveal_none now s hs, mockToggleReveal_none]
    · rw [Redis.resetVotes_none now s hs, mockResetVotes_none]
      exact hs
    · rw [Redis.resetVotes_none now s hs, mockResetVotes_none]
    · rw [Redis.updatePlayerHeartbeat_none now pid s hs,
        mockUpdatePlayerHeartbeat_none]
      exact hs
    · intro hlast
      have hp : { player with lastSeen := now } = player := by
        rw [← hlast]
      rw [Redis.addPlayer_none now rid player s hs, mockAddPlayer_none, hp]
      exact ⟨rfl, rfl⟩
  | some room =>
    have hgr := Redis.getRoom_split now s room hs
    have hgm := mockGetRoom_split now room
    refine ⟨?_, ?_, rfl, rfl, fun g => ⟨rfl, rfl⟩, ?_, ?_, ?_, ?_, ?_, ?_, ?_, ?_⟩
    · rw [hgr, hgm]
      by_cases hc : (room.players.filter (isActive now)).length ≠ room.players.length
      · rw [if_pos hc, if_pos hc]
        rfl
      · rw [if_neg hc, if_neg hc]
        exact hs
    · rw [hgr, hgm]
      by_cases hc : (room.players.filter (isActive now)).length ≠ room.players.length
      · rw [if_pos hc, if_pos hc]
      · rw [if_neg hc, if_neg hc]
    · rw [Redis.updatePlayerVote_eq now pid v s room hs, mockUpdatePlayerVote_eq]
      rfl
    · rw [Redis.updatePlayerVote_eq now pid v s room hs, mockUpdatePlayerVote_eq]
    · rw [Redis.toggleReveal_eq now s room hs, mockToggleReveal_eq]
      rfl
    · rw [Redis.toggleReveal_eq now s room hs, mockToggleReveal_eq]
    · rw [Redis.resetVotes_eq now s room hs, mockResetVotes_eq]
      rfl
    · rw [Redis.resetVotes_eq now s room hs, mockResetVotes_eq]
    · rw [Redis.updatePlayerHeartbeat_eq now pid s room hs,
        mockUpdatePlayerHeartbeat_eq]
      rfl
    · intro hlast
      have hp : { player with lastSeen := now } = player := by
        rw [← hlast]
      rw [Redis.addPlayer_eq now rid player s room hs, mockAddPlayer_eq, hp]
      exact ⟨rfl, rfl⟩

/-- Witness for the amended C8: on the same concrete stored room the two
implementations return the same room from a vote. -/
theorem backend_mock_equiv_witness :
    (Redis.updatePlayerVote 300000 "pa" "9" sW).2 =
      (Mock.updatePlayerVote 300000 "pa" "9" (some roomW)).2 := by
  obtain ⟨-, -, -, -, -, -, h7, -⟩ :=
    backend_mock_equiv 300000 "rx" "pa" "9" pAnn sW (some roomW) rfl
  exact h7

/-- Ids of a filtered participant list stay duplicate-free. -/
theorem ids_filter_nodup (l : List Player) (q : Player → Bool)
    (h : (l.map Player.id).Nodup) : ((l.filter q).map Player.id).Nodup :=
  List.Nodup.sublist (List.Sublist.map Player.id (List.filter_sublist l)) h

/-- Mapping an id-preserving function over a participant list leaves the
id list unchanged. -/
theorem ids_map_preserved (l : List Player) (f : Player → Player)
    (hf : ∀ p, (f p).id = p.id) : (l.map f).map Player.id = l.map Player.id := by
  induction l with
  | nil => rfl
  | cons x xs ih => simp [hf, ih]

/-- Participant identifiers are unique in the room the store holds. -/
def UniqueIds (s : Redis.Store) : Prop :=
  ∀ room, s.room = some room → (room.players.map Player.id).Nodup

/-- The store states reachable by any sequence of the service operations,
starting from the empty cell or a freshly created room. -/
inductive Reach : Redis.Store → Prop where
  | empty : Reach { room := none, expiresAt := none }
  | fresh (now : Nat) (rid : String) : Reach (Redis.createRoom now rid).1
  | join (now : Nat) (rid pid name : String) {s : Redis.Store} :
      Reach s → Reach (Redis.joinRoom now rid pid name s).1
  | vote (now : Nat) (pid v : String) {s : Redis.Store} :
      Reach s → Reach (Redis.updatePlayerVote now pid v s).1
  | reveal (now : Nat) {s : Redis.Store} :
      Reach s → Reach (Redis.toggleReveal now s).1
  | reset (now : Nat) {s : Redis.Store} :
      Reach s → Reach (Redis.resetVotes now s).1
  | heartbeat (now : Nat) (pid : String) {s : Redis.Store} :
      Reach s → Reach (Redis.updatePlayerHeartbeat now pid s)
  | fetch (now : Nat) {s : Redis.Store} :
      Reach s → Reach (Redis.getRoom now s).1

theorem UniqueIds_getRoom (now : Nat) (s : Redis.Store) (h : UniqueIds s) :
    UniqueIds (Redis.getRoom now s).1 := by
  cases hs : s.room with
  | none =>
    rw [Redis.getRoom_none now s hs]
    exact h
  | some room =>
    have hsplit := Redis.getRoom_split now s room hs
    by_cases hc : (room.players.filter (isActive now)).length ≠ room.players.length
    · rw [if_pos hc] at hsplit
      rw [hsplit]
      intro r hr
      have hr2 := Option.some.inj hr
      rw [← hr2]
      exact ids_filter_nodup _ _ (h room hs)
    · rw [if_neg hc] at hsplit
      rw [hsplit]
      exact h

theorem UniqueIds_updatePlayerVote (now : Nat) (pid v : String) (s : Redis.Store)
    (h : UniqueIds s) : UniqueIds (Redis.updatePlayerVote now pid v s).1 := by
  cases hs : s.room with
  | none =>
    rw [Redis.updatePlayerVote_none now pid v s hs]
    exact h
  | some room =>
    rw [Redis.updatePlayerVote_eq now pid v s room hs]
    intro r hr
    have hr2 := Option.some.inj hr
    rw [← hr2]
    show ((((room.players.filter (isActive now)).map _).map Player.id)).Nodup
    rw [ids_map_preserved _ _ (fun p => by
      by_cases hp : p.id == pid <;> simp [hp])]
    exact ids_filter_nodup _ _ (h room hs)

theorem UniqueIds_toggleReveal (now : Nat) (s : Redis.Store)
    (h : UniqueIds s) : UniqueIds (Redis.toggleReveal now s).1 := by
  cases hs : s.room with
  | none =>
    rw [Redis.toggleReveal_none now s hs]
    exact h
  | some room =>
    rw [Redis.toggleReveal_eq now s room hs]
    intro r hr
    have hr2 := Option.some.inj hr
    rw [← hr2]
    exact ids_filter_nodup _ _ (h room hs)

theorem UniqueIds_resetVotes (now : Nat) (s : Redis.Store)
    (h : UniqueIds s) : UniqueIds (Redis.resetVotes now s).1 := by
  cases hs : s.room with
  | none =>
    rw [Redis.resetVotes_none now s hs]
    exact h
  | some room =>
    rw [Redis.resetVotes_eq now s room hs]
    intro r hr
    have hr2 := Option.some.inj hr
    rw [← hr2]
    show ((((room.players.filter (isActive now)).map _).map Player.id)).Nodup
    rw [ids_map_preserved _ _ (fun p => by rfl)]
    exact ids_filter_nodup _ _ (h room hs)

theorem UniqueIds_updatePlayerHeartbeat (now : Nat) (pid : String) (s : Redis.Store)
    (h : UniqueIds s) : UniqueIds (Redis.updatePlayerHeartbeat now pid s) := by
  cases hs : s.room with
  | none =>
    rw [Redis.updatePlayerHeartbeat_none now pid s hs]
    exact h
  | some room =>
    rw [Redis.updatePlayerHeartbeat_eq now pid s room hs]
    intro r hr
    have hr2 := Option.some.inj hr
    rw [← hr2]
    show ((((room.players.filter (isActive now)).map _).map Player.id)).Nodup
    rw [ids_map_preserved _ _ (fun p => by
      by_cases hp : p.id == pid <;> simp [hp])]
    exact ids_filter_nodup _ _ (h room hs)

theorem UniqueIds_addPlayer (now : Nat) (rid : String) (player : Player)
    (s : Redis.Store) (h : UniqueIds s) :
    UniqueIds (Redis.addPlayer now rid player s).1 := by
  cases hs : s.room with
  | none =>
    rw [Redis.addPlayer_none now rid player s hs]
    intro r hr
    have hr2 := Option.some.inj hr
    rw [← hr2]
    simp
  | some room =>
    rw [Redis.addPlayer_eq now rid player s room hs]
    intro r hr
    have hr2 := Option.some.inj hr
    rw [← hr2]
    exact upsertPlayer_ids_nodup _ _ (ids_filter_nodup _ _ (h room hs))

/-- C6: in every store state reachable by any sequence of join, vote,
reveal, reset, heartbeat and fetch starting from an empty cell or a
freshly created room, participant identifiers are unique within the
stored room's participant list. -/
theorem reach_unique_ids (s : Redis.Store) (h : Reach s) : UniqueIds s := by
  induction h with
  | empty => intro room hr; cases hr
  | fresh now rid =>
    intro room hr
    have hr2 := Option.some.inj hr
    rw [← hr2]
    simp
  | join now rid pid name _ ih => exact UniqueIds_addPlayer now rid _ _ ih
  | vote now pid v _ ih => exact UniqueIds_updatePlayerVote now pid v _ ih
  | reveal now _ ih => exact UniqueIds_toggleReveal now _ ih
  | reset now _ ih => exact UniqueIds_resetVotes now _ ih
  | heartbeat now pid _ ih => exact UniqueIds_updatePlayerHeartbeat now pid _ ih
  | fetch now _ ih => exact UniqueIds_getRoom now _ ih

/-- The store after creating a room and joining the same participant id
twice and a second participant once. -/
def sReach : Redis.Store :=
  (Redis.joinRoom 3 "r1" "p1" "Alia"
    (Redis.joinRoom 2 "r1" "p2" "Bo"
      (Redis.joinRoom 1 "r1" "p1" "Al"
        { room := none, expiresAt := none }).1).1).1

/-- Witness for C6: the ids stored after a concrete operation sequence
(join p1, join p2, rejoin p1) are duplicate-free. -/
theorem reach_unique_ids_witness :
    ((retPlayers sReach.room).map Player.id).Nodup := by
  have h := reach_unique_ids sReach
    (Reach.join 3 "r1" "p1" "Alia"
      (Reach.join 2 "r1" "p2" "Bo"
        (Reach.join 1 "r1" "p1" "Al" Reach.empty)))
  have hroom : sReach.room = some ((Redis.joinRoom 3 "r1" "p1" "Alia"
    (Redis.joinRoom 2 "r1" "p2" "Bo"
      (Redis.joinRoom 1 "r1" "p1" "Al"
        { room := none, expiresAt := none }).1).1).2) := by decide
  rw [hroom]
  exact h _ hroom
